import Mathlib

/-!
Verification of the posting-list index storage engine and the audio-buffer
utility of the `otasample` repository.

The repository ships three headers:
* `src/jni/include/KVDataStore.h` — concrete data structures (`PListBlock`,
  `BlockCache`) and the inline predicate `IsNull`;
* `src/jni/TCDataStore.h` — declarations of the Tokyo-Cabinet backed index
  (`TCIndex::GetPListHeader`, `TCIndex::AppendChunk`, `TCIndex::Merge`,
  `TCIndex::RawBlockToBlock`); the bodies of these members are not part of
  the repository sources, so they are modelled here from the specification;
* `src/jni/include/AudioBlock.h` — a complete, header-only fixed-capacity
  audio buffer, embedded here field by field.

Machine integers (`size_t`, `int`, `uint8_t`) are modelled as `Nat`/`Int`;
bytes are `Nat` values below 256.  C pointers that may be null are modelled
as `Option`; buffers are lists whose length plays the role of the allocated
extent.  `float` fields (duration, sample rate, normalization factor) are
modelled as `Rat`; no claim below depends on their rounding behaviour.
-/

/-! ## Byte-level codec (modelled from the spec)

`TCIndex::RawBlockToBlock` is declared in `src/jni/TCDataStore.h` but its
implementation is not in the repository, so the Block Codec is modelled from
the specification (§4.1): fixed-width little-endian integer fields, a block
header of `block_id`, body size, record count and a first-block flag,
followed by the body bytes; decoding fails with `CorruptBlock` when the
buffer is shorter than the header or the declared body length does not match
the remaining bytes. -/

/-- Little-endian serialization of a natural number into `w` bytes. -/
def natToBytesLE : Nat → Nat → List Nat
  | 0, _ => []
  | w + 1, n => n % 256 :: natToBytesLE w (n / 256)

/-- Little-endian deserialization of a byte list into a natural number. -/
def bytesToNatLE : List Nat → Nat
  | [] => 0
  | b :: bs => b + 256 * bytesToNatLE bs

/-- List header stored once per posting list (spec §3): number of blocks and
total record count. -/
structure PListHeader where
  blockCount : Nat
  recordCount : Nat
deriving DecidableEq

/-- Block header stored once per block (spec §3): `block_id`, size of the
body in bytes, record count in the block, and the first-block flag. -/
structure PListBlockHeader where
  blockId : Nat
  bodySize : Nat
  recordCount : Nat
  isFirst : Bool
deriving DecidableEq

/-- Modelled from the spec: errors of the Block Codec (§7). -/
inductive CodecError where
  | corruptBlock
deriving DecidableEq

/-- Modelled from the spec: byte encoding of a block header. Three 4-byte
little-endian fields followed by one flag byte; 13 bytes in total. -/
def encodeBlockHeader (h : PListBlockHeader) : List Nat :=
  natToBytesLE 4 h.blockId ++ natToBytesLE 4 h.bodySize ++
    natToBytesLE 4 h.recordCount ++ [if h.isFirst then 1 else 0]

/-- Modelled from the spec: decoding of a 13-byte block header. -/
def decodeBlockHeader (bs : List Nat) : PListBlockHeader :=
  { blockId := bytesToNatLE (bs.take 4)
    bodySize := bytesToNatLE ((bs.drop 4).take 4)
    recordCount := bytesToNatLE ((bs.drop 8).take 4)
    isFirst :=
      match bs.drop 12 with
      | b :: _ => b != 0
      | [] => false }

/-- Modelled from the spec (§4.1): `encode(blockHeader, body)` concatenates
the block header and the body into one buffer, updating the header's
recorded body length.  The optional block-0 list header prefix is not
involved in the round-trip law under scrutiny. -/
def encodeBlock (h : PListBlockHeader) (body : List Nat) : List Nat :=
  encodeBlockHeader { h with bodySize := body.length } ++ body

/-- Modelled from the spec (§4.1): `decode(bytes)` fails with `CorruptBlock`
if the buffer is shorter than the minimum header size or declares a body
length that does not match the remaining bytes. -/
def decodeBlock (bs : List Nat) : Except CodecError (PListBlockHeader × List Nat) :=
  if bs.length < 13 then .error .corruptBlock
  else
    let h := decodeBlockHeader (bs.take 13)
    let body := bs.drop 13
    if h.bodySize = body.length then .ok (h, body) else .error .corruptBlock

/-- Modelled from the spec: decoding of a stored list header (two 4-byte
little-endian fields). -/
def decodePListHeader (bs : List Nat) : PListHeader :=
  { blockCount := bytesToNatLE (bs.take 4)
    recordCount := bytesToNatLE ((bs.drop 4).take 4) }

/-! ## Structures from `src/jni/include/KVDataStore.h` -/

/-- Embeds `struct PListBlock` (KVDataStore.h:119-125).  The three pointer
fields `ListHeader`, `Header` and `Body` are modelled as `Option` values,
`nullptr` being `none`; `BodySize` is the `size_t` field. -/
structure PListBlock where
  listHeader : Option PListHeader
  header : Option PListBlockHeader
  body : Option (List Nat)
  bodySize : Nat
deriving DecidableEq

/-- Embeds the inline function `IsNull` (KVDataStore.h:137-141):
`hdr.ListHeader==nullptr && hdr.Header==nullptr && hdr.Body==nullptr`. -/
def IsNull (hdr : PListBlock) : Bool :=
  hdr.listHeader.isNone && hdr.header.isNone && hdr.body.isNone

/-- Embeds `struct BlockCache` (KVDataStore.h:127-134): the owning list id,
the general-purpose accumulator, and the `block_map` buffer (an unordered
map from block id to raw bytes, modelled as an association list). -/
structure BlockCache where
  list_id : Int
  accum : Nat
  buffer : List (Int × List Nat)
deriving DecidableEq

/-- Embeds the default constructor `BlockCache() : list_id(0), accum(0) {}`;
the `boost::unordered_map` member is default-constructed empty. -/
def BlockCache.init : BlockCache :=
  { list_id := 0, accum := 0, buffer := [] }

/-! ## Backing key-value collection (modelled from the spec)

The spec (§3, §6) describes the storage substrate as a byte store addressed
by deterministic keys derived from `list_id` (list header) or
`(list_id, block_id)` (block data). -/

/-- Modelled from the spec: the deterministic key space of one index
collection. -/
inductive DBKey where
  | listHeader (list_id : Int)
  | block (list_id : Int) (block_id : Nat)
deriving DecidableEq

/-- Modelled from the spec: a key-value collection, as an association list. -/
abbrev Collection : Type := List (DBKey × List Nat)

/-- Modelled from the spec: `get(key) -> bytes?` of the collection. -/
def colGet : Collection → DBKey → Option (List Nat)
  | [], _ => none
  | (k, v) :: rest, key => if k = key then some v else colGet rest key

/-! ## Posting-list index operations (modelled from the spec)

`TCIndex` member functions are declared in `src/jni/TCDataStore.h` without
bodies in the repository, so they are modelled from spec §4.3. -/

namespace TCIndex

/-- Modelled from the spec: `TCIndex::GetPListHeader` — reads and decodes
the header key; returns a zero-valued header if absent (§4.3: a list that
does not yet exist is valid and empty). -/
def GetPListHeader (c : Collection) (list_id : Int) : PListHeader :=
  match colGet c (DBKey.listHeader list_id) with
  | none => { blockCount := 0, recordCount := 0 }
  | some bs => decodePListHeader bs

/-- One stored block of a posting list: its header and its body bytes. -/
structure Blk where
  header : PListBlockHeader
  body : List Nat
deriving DecidableEq

/-- Modelled from the spec: `TCIndex::AppendChunk` restricted to the block
sequence of one list (§4.3).  `cap` is the fixed block capacity in bytes.
If `new_block` is set, or the current last block has no room for the chunk,
the whole chunk is placed in a new block with `block_id = last + 1`;
otherwise the chunk is appended to the current last block.  `chunkRecords`
is the record count carried by the chunk's header argument. -/
def AppendChunk (cap : Nat) (blocks : List Blk) (chunk : List Nat)
    (chunkRecords : Nat) (new_block : Bool) : List Blk :=
  match blocks.getLast? with
  | none =>
      [{ header := { blockId := 0, bodySize := chunk.length,
                     recordCount := chunkRecords, isFirst := true },
         body := chunk }]
  | some last =>
      if new_block || decide (cap < last.body.length + chunk.length) then
        blocks ++
          [{ header := { blockId := last.header.blockId + 1,
                         bodySize := chunk.length,
                         recordCount := chunkRecords, isFirst := false },
             body := chunk }]
      else
        blocks.dropLast ++
          [{ header := { last.header with
                           bodySize := last.body.length + chunk.length,
                           recordCount := last.header.recordCount + chunkRecords },
             body := last.body ++ chunk }]

/-- The stored state of one posting list: its header and its blocks. -/
structure IdxList where
  header : PListHeader
  blocks : List Blk
deriving DecidableEq

/-- A list that does not yet exist: zero-valued header, no blocks. -/
def emptyIdxList : IdxList :=
  { header := { blockCount := 0, recordCount := 0 }, blocks := [] }

/-- An index collection viewed per list: association list from `list_id` to
the list's stored state. -/
abbrev PLIndex : Type := List (Int × IdxList)

/-- Lookup in an association list keyed by `Int`. -/
def alookup {α : Type} : List (Int × α) → Int → Option α
  | [], _ => none
  | (k, v) :: rest, key => if k = key then some v else alookup rest key

/-- Insert-or-replace in an association list keyed by `Int` (replaces the
first occurrence of the key, else appends). -/
def aput {α : Type} : List (Int × α) → Int → α → List (Int × α)
  | [], key, v => [(key, v)]
  | (k, w) :: rest, key, v =>
      if k = key then (key, v) :: rest else (k, w) :: aput rest key v

/-- The keys of an association list. -/
def akeys {α : Type} (m : List (Int × α)) : List Int := m.map (·.1)

/-- Modelled from the spec (§4.3 merge): folding one of `other`'s lists into
the corresponding list of `self` — every one of `other`'s blocks is appended
body-wise as a chunk via the `AppendChunk` logic, and the list header's
totals are recomputed as the sum of `self`'s and `other`'s prior totals. -/
def MergeList (cap : Nat) (self other : IdxList) : IdxList :=
  let blocks := other.blocks.foldl
    (fun bs b => AppendChunk cap bs b.body b.header.recordCount false)
    self.blocks
  { header := { blockCount := blocks.length
                recordCount := self.header.recordCount + other.header.recordCount }
    blocks := blocks }

/-- Modelled from the spec: `TCIndex::Merge` — folds every list of the
`delta` index into the `main` index, one list at a time; lists present only
in `delta` are created fresh in `main`. -/
def Merge (cap : Nat) (main delta : PLIndex) : PLIndex :=
  delta.foldl
    (fun m p => aput m p.1 (MergeList cap ((alookup m p.1).getD emptyIdxList) p.2))
    main

/-- The record count a list currently has in an index, zero when the list is
absent (mirroring `GetPListHeader`'s zero-valued header for absent lists). -/
def recCountOf (m : PLIndex) (id : Int) : Nat :=
  ((alookup m id).getD emptyIdxList).header.recordCount

end TCIndex

/-! ## `AudioBlock<T>` from `src/jni/include/AudioBlock.h`

The template class is embedded field by field.  `mData` is the `T*` buffer:
`none` models `nullptr`, `some buf` a heap array whose length is the
allocated extent.  Writes through `memcpy` are modelled by `listWrite`,
which never changes the allocated length (out-of-bounds bytes of a C
`memcpy` have no defined observable value and are truncated here). -/

/-- Overwrite `buf` starting at `off` with the elements of `src`, keeping
the buffer length fixed (in-bounds portion of a `memcpy`). -/
def listWrite {T : Type} (buf : List T) (off : Nat) (src : List T) : List T :=
  buf.take off ++ (src ++ buf.drop (off + src.length)).take (buf.length - off)

/-- Embeds the fields of `AudioBlock<T>` (AudioBlock.h:167-176). -/
structure AudioBlock (T : Type) where
  mCapacity : Nat
  mDuration : Rat
  mSize : Nat
  mSampleRate : Rat
  mChannels : Nat
  mData : Option (List T)
  mID : Int
  mTimestamp : Nat
  mNormFactor : Rat
deriving DecidableEq

namespace AudioBlock

/-- Embeds `Capacity()` (AudioBlock.h:314). -/
def Capacity {T : Type} (b : AudioBlock T) : Nat := b.mCapacity

/-- Embeds `Size()` (AudioBlock.h:317). -/
def Size {T : Type} (b : AudioBlock T) : Nat := b.mSize

/-- Embeds `IsNull()` (AudioBlock.h:338): `mData == nullptr`. -/
def IsNull {T : Type} (b : AudioBlock T) : Bool := b.mData.isNone

/-- Embeds `Resize(newsize)` (AudioBlock.h:360-370): clamps `newsize` to the
capacity, sets the size and recomputes the duration; the buffer is not
touched. -/
def Resize {T : Type} (b : AudioBlock T) (newsize : Nat) : AudioBlock T :=
  let n := if b.mCapacity < newsize then b.mCapacity else newsize
  { b with mSize := n
           mDuration := (n : Rat) / ((b.mChannels : Rat) * b.mSampleRate) }

/-- Embeds `DoAppend(data, nsamples)` (AudioBlock.h:475-495): computes the
available space, copies the copyable prefix of the data at offset `mSize`,
then resizes to `mSize + copyable`.  The sample pointer plus its length are
modelled as the list `data`. -/
def DoAppend {T : Type} (b : AudioBlock T) (data : List T) : AudioBlock T :=
  let available := b.mCapacity - b.mSize
  if 0 < available then
    let copyable := if data.length ≤ available then data.length else available
    let b' := { b with
      mData := b.mData.map (fun buf => listWrite buf b.mSize (data.take copyable)) }
    b'.Resize (b.mSize + copyable)
  else b

/-- Embeds `Append(data, nsamples)` (AudioBlock.h:463-471): nothing to
append (null pointer or zero samples) returns the block unchanged, else
`DoAppend`. -/
def Append {T : Type} (b : AudioBlock T) (data : List T) : AudioBlock T :=
  if data.isEmpty then b else b.DoAppend data

/-- Embeds `SetData(data, nsamples)` (AudioBlock.h:380-390): resizes when
the sample count differs from the current size, copies `mSize` samples into
the buffer, and returns the number of written samples.  The result pairs the
updated block with the returned count. -/
def SetData {T : Type} (b : AudioBlock T) (data : List T) : AudioBlock T × Nat :=
  let b' := if data.length ≠ b.mSize then b.Resize data.length else b
  let b2 := { b' with
    mData := b'.mData.map (fun buf => listWrite buf 0 (data.take b'.mSize)) }
  (b2, b2.mSize)

/-- Embeds the copy constructor (AudioBlock.h:228-240): every field is
copied from the source except `mID`, which is initialized to 0; the buffer
is freshly allocated (`mCapacity ? new T[mCapacity] : nullptr`) and the
source contents copied into it. -/
def copyCtor {T : Type} (b : AudioBlock T) : AudioBlock T :=
  { mCapacity := b.mCapacity
    mDuration := b.mDuration
    mSize := b.mSize
    mSampleRate := b.mSampleRate
    mChannels := b.mChannels
    mData := if b.mCapacity = 0 then none else b.mData
    mID := 0
    mTimestamp := b.mTimestamp
    mNormFactor := b.mNormFactor }

/-- Embeds `Swap(b1, b2)` (AudioBlock.h:285-295): exchanges `mCapacity`,
`mDuration`, `mSize`, `mSampleRate`, `mChannels`, `mData`, `mTimestamp` and
`mNormFactor` — every field except `mID`. -/
def Swap {T : Type} (b1 b2 : AudioBlock T) : AudioBlock T × AudioBlock T :=
  ({ b2 with mID := b1.mID }, { b1 with mID := b2.mID })

/-- Embeds `operator=(AudioBlock<T> block)` (AudioBlock.h:298-302): the
argument is passed by value (a copy-constructed temporary), swapped with the
target, and the target returned. -/
def assign {T : Type} (target source : AudioBlock T) : AudioBlock T :=
  let tmp := source.copyCtor
  (Swap target tmp).1

/-- Embeds `GetSubBlock(start, size, block)` (AudioBlock.h:499-520): when
either block is null or `start` is not below the source size, the
destination is resized to 0; otherwise `min(size, mSize - start)` samples
starting at `start` are copied into the destination buffer and the
destination resized to that count (the `memcpy` writes are kept in bounds of
the destination buffer, see `listWrite`). -/
def GetSubBlock {T : Type} (b : AudioBlock T) (start size : Nat)
    (block : AudioBlock T) : AudioBlock T :=
  if b.IsNull || block.IsNull || !decide (start < b.mSize) then
    block.Resize 0
  else
    let sbsize := min size (b.mSize - start)
    let blk := { block with
      mData := block.mData.map
        (fun buf => listWrite buf 0 (((b.mData.getD []).drop start).take sbsize)) }
    blk.Resize sbsize

/-- The allocated extent of the block's buffer (`none` for a null block). -/
def bufLen {T : Type} (b : AudioBlock T) : Option Nat := b.mData.map List.length

/-- The basic size invariant of an audio block: the available data never
exceeds the capacity. -/
abbrev Wf {T : Type} (b : AudioBlock T) : Prop := b.mSize ≤ b.mCapacity

end AudioBlock

/-! ## Helper lemmas -/

theorem natToBytesLE_length (w n : Nat) : (natToBytesLE w n).length = w := by
  induction w generalizing n with
  | zero => rfl
  | succ w ih => simp [natToBytesLE, ih]

theorem bytesToNatLE_natToBytesLE {w n : Nat} (h : n < 256 ^ w) :
    bytesToNatLE (natToBytesLE w n) = n := by
  induction w generalizing n with
  | zero =>
      simp only [pow_zero, Nat.lt_one_iff] at h
      simp [natToBytesLE, bytesToNatLE, h]
  | succ w ih =>
      have hdiv : n / 256 < 256 ^ w := by
        apply Nat.div_lt_of_lt_mul
        calc n < 256 ^ (w + 1) := h
          _ = 256 * 256 ^ w := by ring
      simp only [natToBytesLE, bytesToNatLE, ih hdiv]
      omega

theorem encodeBlockHeader_length (h : PListBlockHeader) :
    (encodeBlockHeader h).length = 13 := by
  simp [encodeBlockHeader, natToBytesLE_length]

theorem decodeBlockHeader_encodeBlockHeader (h : PListBlockHeader)
    (hid : h.blockId < 2 ^ 32) (hsz : h.bodySize < 2 ^ 32)
    (hrc : h.recordCount < 2 ^ 32) :
    decodeBlockHeader (encodeBlockHeader h) = h := by
  have hpow : (2 : Nat) ^ 32 = 256 ^ 4 := by norm_num
  rw [hpow] at hid hsz hrc
  have la : (natToBytesLE 4 h.blockId).length = 4 := natToBytesLE_length 4 _
  have lb : (natToBytesLE 4 h.bodySize).length = 4 := natToBytesLE_length 4 _
  have lc : (natToBytesLE 4 h.recordCount).length = 4 := natToBytesLE_length 4 _
  have lab : (natToBytesLE 4 h.blockId ++ natToBytesLE 4 h.bodySize).length = 8 := by
    simp [la, lb]
  have labc : ((natToBytesLE 4 h.blockId ++ natToBytesLE 4 h.bodySize) ++
      natToBytesLE 4 h.recordCount).length = 12 := by
    simp [la, lb, lc]
  cases h with
  | mk bid bsz brc bfst =>
    simp only [encodeBlockHeader, decodeBlockHeader] at *
    rw [PListBlockHeader.mk.injEq]
    refine ⟨?_, ?_, ?_, ?_⟩
    · rw [List.append_assoc, List.append_assoc, List.take_left' la,
        bytesToNatLE_natToBytesLE hid]
    · rw [List.append_assoc, List.append_assoc, List.drop_left' la,
        List.take_left' lb, bytesToNatLE_natToBytesLE hsz]
    · rw [List.append_assoc, List.drop_left' lab, List.take_left' lc,
        bytesToNatLE_natToBytesLE hrc]
    · rw [List.drop_left' labc]
      cases bfst <;> rfl

/-! ## Claim theorems: data model and codec -/

/-- C1 (counterexample): the claim states that `IsNull` returns true
whenever the block's header and body are both unset, regardless of the
other fields.  The source predicate additionally requires the list-header
pointer to be null: on a block whose `Header` and `Body` are null but whose
`ListHeader` is set, `IsNull` returns false. -/
theorem isNull_header_body_unset_cex :
    (PListBlock.mk (some ⟨1, 2⟩) none none 0).header = none ∧
    (PListBlock.mk (some ⟨1, 2⟩) none none 0).body = none ∧
    IsNull (PListBlock.mk (some ⟨1, 2⟩) none none 0) = false :=
  ⟨rfl, rfl, rfl⟩

/-- C1 (amended): `IsNull` returns true if and only if the block's list
header, block header and body are all unset; the `BodySize` field plays no
role. -/
theorem isNull_iff_all_three_unset (b : PListBlock) :
    IsNull b = true ↔ b.listHeader = none ∧ b.header = none ∧ b.body = none := by
  cases b with
  | mk lh hd bd sz =>
      simp [IsNull, Option.isNone_iff_eq_none, Bool.and_eq_true, and_assoc]

/-- C2: for every valid pair of a block header and a body (the header's
recorded body size matches the body, and the numeric fields fit their
4-byte wire format), decoding the bytes produced by encoding them yields
back exactly the same header and body. -/
theorem decode_encode_roundtrip (h : PListBlockHeader) (body : List Nat)
    (hsz : h.bodySize = body.length) (hid : h.blockId < 2 ^ 32)
    (hrc : h.recordCount < 2 ^ 32) (hbl : body.length < 2 ^ 32) :
    decodeBlock (encodeBlock h body) = Except.ok (h, body) := by
  have e1 : (encodeBlock h body).length = 13 + body.length := by
    simp [encodeBlock, encodeBlockHeader_length]
  have e2 : (encodeBlock h body).take 13 =
      encodeBlockHeader { h with bodySize := body.length } :=
    List.take_left' (encodeBlockHeader_length _)
  have e3 : (encodeBlock h body).drop 13 = body :=
    List.drop_left' (encodeBlockHeader_length _)
  have hh : ({ h with bodySize := body.length } : PListBlockHeader) = h := by
    cases h
    simp only at hsz ⊢
    rw [← hsz]
  have hdec : decodeBlockHeader
      (encodeBlockHeader { h with bodySize := body.length }) =
      { h with bodySize := body.length } :=
    decodeBlockHeader_encodeBlockHeader _ hid hbl hrc
  simp only [decodeBlock]
  rw [e1, e2, e3, hdec, hh, if_neg (by omega), if_pos hsz]

/-- Witness for C2 at a concrete header and body. -/
theorem decode_encode_roundtrip_witness :
    (⟨3, 2, 5, true⟩ : PListBlockHeader).bodySize = [7, 9].length ∧
    (⟨3, 2, 5, true⟩ : PListBlockHeader).blockId < 2 ^ 32 ∧
    (⟨3, 2, 5, true⟩ : PListBlockHeader).recordCount < 2 ^ 32 ∧
    ([7, 9] : List Nat).length < 2 ^ 32 ∧
    decodeBlock (encodeBlock ⟨3, 2, 5, true⟩ [7, 9]) =
      Except.ok (⟨3, 2, 5, true⟩, [7, 9]) :=
  ⟨rfl, by norm_num, by norm_num, by norm_num,
    decode_encode_roundtrip ⟨3, 2, 5, true⟩ [7, 9] rfl (by norm_num)
      (by norm_num) (by norm_num)⟩

/-- C5: for every list id whose header key is absent from the backing
collection, `GetPListHeader` returns the zero-valued list header rather
than an error. -/
theorem getPListHeader_absent_zero (c : Collection) (list_id : Int)
    (h : colGet c (DBKey.listHeader list_id) = none) :
    TCIndex.GetPListHeader c list_id = { blockCount := 0, recordCount := 0 } := by
  unfold TCIndex.GetPListHeader
  rw [h]

/-- Witness for C5 on the empty collection. -/
theorem getPListHeader_absent_zero_witness :
    colGet ([] : Collection) (DBKey.listHeader 7) = none ∧
    TCIndex.GetPListHeader ([] : Collection) 7 =
      { blockCount := 0, recordCount := 0 } :=
  ⟨rfl, getPListHeader_absent_zero [] 7 rfl⟩

/-- C6: a freshly constructed `BlockCache` is empty — its `list_id` is 0,
its accumulator is 0 and its block buffer holds no entries. -/
theorem blockCache_init_empty :
    BlockCache.init.list_id = 0 ∧ BlockCache.init.accum = 0 ∧
    BlockCache.init.buffer = [] :=
  ⟨rfl, rfl, rfl⟩

/-! ## Claim theorems: append and merge -/

/-- C4: every call to `AppendChunk` leaves the appended chunk wholly
contained in exactly one block — either the whole chunk goes to a single
newly created block appended after the existing ones, or it is appended in
one piece to the current last block; in both cases every other block is
left untouched and the chunk is never split across two blocks. -/
theorem appendChunk_no_split (cap : Nat) (blocks : List TCIndex.Blk)
    (chunk : List Nat) (chunkRecords : Nat) (new_block : Bool) :
    (∃ b : TCIndex.Blk,
        TCIndex.AppendChunk cap blocks chunk chunkRecords new_block =
          blocks ++ [b] ∧ b.body = chunk) ∨
    (∃ last b : TCIndex.Blk, blocks.getLast? = some last ∧
        b.body = last.body ++ chunk ∧
        TCIndex.AppendChunk cap blocks chunk chunkRecords new_block =
          blocks.dropLast ++ [b]) := by
  unfold TCIndex.AppendChunk
  cases hl : blocks.getLast? with
  | none =>
      left
      have hb : blocks = [] := List.getLast?_eq_none_iff.mp hl
      subst hb
      exact ⟨_, rfl, rfl⟩
  | some last =>
      dsimp only
      by_cases hc : (new_block || decide (cap < last.body.length + chunk.length)) = true
      · left
        rw [if_pos hc]
        exact ⟨_, rfl, rfl⟩
      · right
        rw [if_neg hc]
        exact ⟨last, _, rfl, rfl, rfl⟩

/-! ### Association-list lemmas for the merge proof -/

theorem alookup_aput_self {α : Type} (m : List (Int × α)) (k : Int) (v : α) :
    TCIndex.alookup (TCIndex.aput m k v) k = some v := by
  induction m with
  | nil => simp [TCIndex.aput, TCIndex.alookup]
  | cons p rest ih =>
      obtain ⟨q, w⟩ := p
      by_cases h : q = k
      · subst h
        simp [TCIndex.aput, TCIndex.alookup]
      · simp [TCIndex.aput, TCIndex.alookup, h, ih]

theorem alookup_aput_ne {α : Type} (m : List (Int × α)) (k key : Int) (v : α)
    (hne : k ≠ key) :
    TCIndex.alookup (TCIndex.aput m k v) key = TCIndex.alookup m key := by
  induction m with
  | nil => simp [TCIndex.aput, TCIndex.alookup, hne]
  | cons p rest ih =>
      obtain ⟨q, w⟩ := p
      by_cases h : q = k
      · subst h
        simp [TCIndex.aput, TCIndex.alookup, hne]
      · simp [TCIndex.aput, TCIndex.alookup, h, ih]

theorem merge_foldl_untouched (cap : Nat) (l : List (Int × TCIndex.IdxList))
    (m : TCIndex.PLIndex) (id : Int) (h : id ∉ TCIndex.akeys l) :
    TCIndex.alookup
      (l.foldl (fun acc p => TCIndex.aput acc p.1
        (TCIndex.MergeList cap
          ((TCIndex.alookup acc p.1).getD TCIndex.emptyIdxList) p.2)) m) id =
    TCIndex.alookup m id := by
  induction l generalizing m with
  | nil => rfl
  | cons p rest ih =>
      simp only [TCIndex.akeys, List.map_cons, List.mem_cons] at h
      push_neg at h
      simp only [List.foldl_cons]
      rw [ih _ (by simpa [TCIndex.akeys] using h.2)]
      exact alookup_aput_ne _ _ _ _ (fun c => h.1 c.symm)

/-- C3: after merging a delta index into a main index, every list present
in either index has, in the merged index, a header record count equal to
the sum of the record counts the list had in main and in delta before the
merge (absent lists counting as zero, as `GetPListHeader` returns a
zero-valued header for them). -/
theorem merge_record_totals (cap : Nat) (main delta : TCIndex.PLIndex)
    (id : Int) (hnd : (TCIndex.akeys delta).Nodup)
    (hpres : (TCIndex.alookup main id).isSome ∨
      (TCIndex.alookup delta id).isSome) :
    TCIndex.recCountOf (TCIndex.Merge cap main delta) id =
      TCIndex.recCountOf main id + TCIndex.recCountOf delta id := by
  induction delta generalizing main with
  | nil => simp [TCIndex.Merge, TCIndex.recCountOf, TCIndex.alookup,
      TCIndex.emptyIdxList]
  | cons p rest ih =>
      obtain ⟨k, dl⟩ := p
      simp only [TCIndex.akeys, List.map_cons, List.nodup_cons] at hnd
      by_cases hk : k = id
      · subst hk
        have huntouched := merge_foldl_untouched cap rest
          (TCIndex.aput main k
            (TCIndex.MergeList cap
              ((TCIndex.alookup main k).getD TCIndex.emptyIdxList) dl)) k
          (by simpa [TCIndex.akeys] using hnd.1)
        simp only [TCIndex.Merge, List.foldl_cons, TCIndex.recCountOf]
        rw [huntouched, alookup_aput_self]
        simp [TCIndex.MergeList, TCIndex.alookup]
      · have hrw : TCIndex.alookup
            (TCIndex.aput main k
              (TCIndex.MergeList cap
                ((TCIndex.alookup main k).getD TCIndex.emptyIdxList) dl)) id =
            TCIndex.alookup main id := alookup_aput_ne _ _ _ _ hk
        have hpres' : (TCIndex.alookup
              (TCIndex.aput main k
                (TCIndex.MergeList cap
                  ((TCIndex.alookup main k).getD TCIndex.emptyIdxList) dl))
              id).isSome ∨
            (TCIndex.alookup rest id).isSome := by
          rcases hpres with hm | hd
          · left
            rw [hrw]
            exact hm
          · right
            simpa [TCIndex.alookup, hk] using hd
        have := ih
          (TCIndex.aput main k
            (TCIndex.MergeList cap
              ((TCIndex.alookup main k).getD TCIndex.emptyIdxList) dl))
          hnd.2 hpres'
        simp only [TCIndex.Merge, List.foldl_cons] at this ⊢
        rw [this]
        simp [TCIndex.recCountOf, hrw, TCIndex.alookup, hk]

/-- Witness for C3: list 7 holds 10 records in main and 5 in delta; list 3
exists only in delta with 4 records. After the merge list 7 totals 15. -/
theorem merge_record_totals_witness :
    (TCIndex.akeys
      [(7, TCIndex.IdxList.mk ⟨1, 5⟩ []), (3, TCIndex.IdxList.mk ⟨1, 4⟩ [])]).Nodup ∧
    ((TCIndex.alookup [(7, TCIndex.IdxList.mk ⟨1, 10⟩ [])] 7).isSome ∨
      (TCIndex.alookup
        [(7, TCIndex.IdxList.mk ⟨1, 5⟩ []), (3, TCIndex.IdxList.mk ⟨1, 4⟩ [])]
        7).isSome) ∧
    TCIndex.recCountOf
      (TCIndex.Merge 100 [(7, TCIndex.IdxList.mk ⟨1, 10⟩ [])]
        [(7, TCIndex.IdxList.mk ⟨1, 5⟩ []), (3, TCIndex.IdxList.mk ⟨1, 4⟩ [])]) 7 =
      TCIndex.recCountOf [(7, TCIndex.IdxList.mk ⟨1, 10⟩ [])] 7 +
      TCIndex.recCountOf
        [(7, TCIndex.IdxList.mk ⟨1, 5⟩ []), (3, TCIndex.IdxList.mk ⟨1, 4⟩ [])] 7 :=
  ⟨by decide, Or.inl (by decide),
    merge_record_totals 100 _ _ 7 (by decide) (Or.inl (by decide))⟩

/-! ### Buffer-write lemmas -/

theorem listWrite_length {T : Type} (buf : List T) (off : Nat) (src : List T) :
    (listWrite buf off src).length = buf.length := by
  simp only [listWrite, List.length_append, List.length_take, List.length_drop]
  omega

theorem listWrite_nil {T : Type} (buf : List T) (off : Nat) :
    listWrite buf off [] = buf := by
  have h : (List.drop off buf).length ≤ buf.length - off := by simp
  simp only [listWrite, List.nil_append, List.length_nil, Nat.add_zero]
  rw [List.take_of_length_le h, List.take_append_drop]

theorem Resize_mSize {T : Type} (b : AudioBlock T) (n : Nat) :
    (b.Resize n).mSize = min n b.mCapacity := by
  simp only [AudioBlock.Resize]
  split <;> omega

theorem Resize_mData {T : Type} (b : AudioBlock T) (n : Nat) :
    (b.Resize n).mData = b.mData := rfl

theorem Resize_mCapacity {T : Type} (b : AudioBlock T) (n : Nat) :
    (b.Resize n).mCapacity = b.mCapacity := rfl

/-! ## Claim theorems: `AudioBlock` -/

/-- C8: for every audio block satisfying the size invariant, the size never
exceeds the capacity after any mutating operation, no operation changes the
allocated buffer extent, `Resize n` sets the size to `min n capacity`,
`Append data` sets the size to `min (size + |data|) capacity` writing only
the prefix of the data that fits, and `SetData data` returns (and sets)
`min |data| capacity`. -/
theorem audioBlock_mutators_bounded {T : Type} (b : AudioBlock T) (buf : List T)
    (n : Nat) (data : List T) (hwf : b.Wf) (hbuf : b.mData = some buf) :
    ((b.Resize n).Size = min n b.Capacity ∧ (b.Resize n).Wf ∧
      (b.Resize n).mData = b.mData) ∧
    ((b.Append data).Size = min (b.Size + data.length) b.Capacity ∧
      (b.Append data).Wf ∧ (b.Append data).bufLen = b.bufLen ∧
      (b.Append data).mData =
        some (listWrite buf b.Size
          (data.take (min data.length (b.Capacity - b.Size))))) ∧
    ((b.SetData data).2 = min data.length b.Capacity ∧
      (b.SetData data).1.Size = min data.length b.Capacity ∧
      (b.SetData data).1.Wf ∧ (b.SetData data).1.bufLen = b.bufLen) := by
  simp only [AudioBlock.Size, AudioBlock.Capacity, AudioBlock.bufLen, AudioBlock.Wf] at *
  have happ : (b.Append data).mSize = min (b.mSize + data.length) b.mCapacity ∧
      (b.Append data).mData = some (listWrite buf b.mSize
        (data.take (min data.length (b.mCapacity - b.mSize)))) := by
    by_cases hd : data.isEmpty
    · have hdata : data = [] := List.isEmpty_iff.mp hd
      subst hdata
      constructor
      · simp only [List.length_nil, Nat.add_zero]
        show b.mSize = min b.mSize b.mCapacity
        omega
      · show b.mData = _
        rw [hbuf, List.take_nil, listWrite_nil]
    · have hAppend : b.Append data = b.DoAppend data := by
        simp [AudioBlock.Append, hd]
      rw [hAppend]
      by_cases hav : 0 < b.mCapacity - b.mSize
      · have hcopy : (if data.length ≤ b.mCapacity - b.mSize
            then data.length else b.mCapacity - b.mSize) =
            min data.length (b.mCapacity - b.mSize) := by
          rw [Nat.min_def]
        simp only [AudioBlock.DoAppend, hav, if_true, hcopy]
        constructor
        · rw [Resize_mSize]
          simp only [hbuf]
          omega
        · rw [Resize_mData]
          simp [hbuf]
      · have h0 : min data.length (b.mCapacity - b.mSize) = 0 := by omega
        simp only [AudioBlock.DoAppend, hav, if_false, h0, List.take_zero]
        refine ⟨by omega, ?_⟩
        rw [hbuf, listWrite_nil]
  have hset : (b.SetData data).1.mSize = min data.length b.mCapacity ∧
      (b.SetData data).2 = min data.length b.mCapacity ∧
      (b.SetData data).1.mData.map List.length = b.mData.map List.length := by
    by_cases hne : data.length ≠ b.mSize
    · simp only [AudioBlock.SetData]
      rw [if_pos hne]
      refine ⟨by rw [Resize_mSize], by rw [Resize_mSize], ?_⟩
      rw [Resize_mData, hbuf]
      simp [listWrite_length]
    · simp only [AudioBlock.SetData]
      rw [if_neg hne]
      push_neg at hne
      refine ⟨by omega, by omega, ?_⟩
      rw [hbuf]
      simp [listWrite_length]
  refine ⟨⟨Resize_mSize b n, ?_, rfl⟩, ⟨happ.1, ?_, ?_, happ.2⟩,
    ⟨hset.2.1, hset.1, ?_, hset.2.2⟩⟩
  · rw [Resize_mSize, Resize_mCapacity]
    omega
  · show (b.Append data).mSize ≤ (b.Append data).mCapacity
    have hcap : (b.Append data).mCapacity = b.mCapacity := by
      by_cases hd : data.isEmpty
      · have hdata : data = [] := List.isEmpty_iff.mp hd
        subst hdata
        rfl
      · have hAppend : b.Append data = b.DoAppend data := by
          simp [AudioBlock.Append, hd]
        rw [hAppend]
        simp only [AudioBlock.DoAppend]
        split <;> rfl
    rw [happ.1, hcap]
    omega
  · rw [happ.2, hbuf]
    simp [listWrite_length]
  · show (b.SetData data).1.mSize ≤ (b.SetData data).1.mCapacity
    have hcap : (b.SetData data).1.mCapacity = b.mCapacity := by
      simp only [AudioBlock.SetData]
      split <;> rfl
    rw [hset.1, hcap]
    omega

/-- Witness for C8 on a concrete 4-sample-capacity block holding 2 samples,
resized to 9, appended with 3 samples, and overwritten with 3 samples. -/
theorem audioBlock_mutators_bounded_witness :
    (⟨4, 0, 2, 1, 1, some [1, 2, 3, 4], 0, 0, 1⟩ : AudioBlock Int).Wf ∧
    (⟨4, 0, 2, 1, 1, some [1, 2, 3, 4], 0, 0, 1⟩ : AudioBlock Int).mData =
      some [1, 2, 3, 4] ∧
    ((((⟨4, 0, 2, 1, 1, some [1, 2, 3, 4], 0, 0, 1⟩ : AudioBlock Int).Resize 9).Size = 4 ∧
      ((⟨4, 0, 2, 1, 1, some [1, 2, 3, 4], 0, 0, 1⟩ : AudioBlock Int).Resize 9).Wf ∧
      ((⟨4, 0, 2, 1, 1, some [1, 2, 3, 4], 0, 0, 1⟩ : AudioBlock Int).Resize 9).mData =
        some [1, 2, 3, 4]) ∧
    (((⟨4, 0, 2, 1, 1, some [1, 2, 3, 4], 0, 0, 1⟩ : AudioBlock Int).Append [5, 6, 7]).Size = 4 ∧
      ((⟨4, 0, 2, 1, 1, some [1, 2, 3, 4], 0, 0, 1⟩ : AudioBlock Int).Append [5, 6, 7]).Wf ∧
      ((⟨4, 0, 2, 1, 1, some [1, 2, 3, 4], 0, 0, 1⟩ : AudioBlock Int).Append [5, 6, 7]).bufLen =
        (⟨4, 0, 2, 1, 1, some [1, 2, 3, 4], 0, 0, 1⟩ : AudioBlock Int).bufLen ∧
      ((⟨4, 0, 2, 1, 1, some [1, 2, 3, 4], 0, 0, 1⟩ : AudioBlock Int).Append [5, 6, 7]).mData =
        some [1, 2, 5, 6]) ∧
    (((⟨4, 0, 2, 1, 1, some [1, 2, 3, 4], 0, 0, 1⟩ : AudioBlock Int).SetData [5, 6, 7]).2 = 3 ∧
      ((⟨4, 0, 2, 1, 1, some [1, 2, 3, 4], 0, 0, 1⟩ : AudioBlock Int).SetData [5, 6, 7]).1.Size = 3 ∧
      ((⟨4, 0, 2, 1, 1, some [1, 2, 3, 4], 0, 0, 1⟩ : AudioBlock Int).SetData [5, 6, 7]).1.Wf ∧
      ((⟨4, 0, 2, 1, 1, some [1, 2, 3, 4], 0, 0, 1⟩ : AudioBlock Int).SetData [5, 6, 7]).1.bufLen =
        (⟨4, 0, 2, 1, 1, some [1, 2, 3, 4], 0, 0, 1⟩ : AudioBlock Int).bufLen)) :=
  ⟨by decide, rfl,
    audioBlock_mutators_bounded _ [1, 2, 3, 4] 9 [5, 6, 7] (by decide) rfl⟩

/-- C9: the ID field is excluded from copy semantics — for every block
whose null buffer coincides with zero capacity, the copy constructor yields
ID 0 while every other field (capacity, duration, size, sample rate,
channels, buffer contents, timestamp, normalization factor) is copied, and
the assignment operator leaves the target's ID unchanged while every other
field is taken from the source, because `Swap` exchanges every field except
the ID. -/
theorem audioBlock_id_not_copied {T : Type} (b target source : AudioBlock T)
    (hb : b.mData = none ↔ b.mCapacity = 0)
    (hs : source.mData = none ↔ source.mCapacity = 0) :
    (b.copyCtor.mID = 0 ∧ b.copyCtor.mData = b.mData ∧
      b.copyCtor.mCapacity = b.mCapacity ∧ b.copyCtor.mSize = b.mSize ∧
      b.copyCtor.mDuration = b.mDuration ∧
      b.copyCtor.mSampleRate = b.mSampleRate ∧
      b.copyCtor.mChannels = b.mChannels ∧
      b.copyCtor.mTimestamp = b.mTimestamp ∧
      b.copyCtor.mNormFactor = b.mNormFactor) ∧
    ((target.assign source).mID = target.mID ∧
      (target.assign source).mData = source.mData ∧
      (target.assign source).mCapacity = source.mCapacity ∧
      (target.assign source).mSize = source.mSize ∧
      (target.assign source).mDuration = source.mDuration ∧
      (target.assign source).mSampleRate = source.mSampleRate ∧
      (target.assign source).mChannels = source.mChannels ∧
      (target.assign source).mTimestamp = source.mTimestamp ∧
      (target.assign source).mNormFactor = source.mNormFactor) := by
  have hdata : ∀ x : AudioBlock T, (x.mData = none ↔ x.mCapacity = 0) →
      x.copyCtor.mData = x.mData := by
    intro x hx
    by_cases h0 : x.mCapacity = 0
    · simp [AudioBlock.copyCtor, h0, hx.mpr h0]
    · simp [AudioBlock.copyCtor, h0]
  exact ⟨⟨rfl, hdata b hb, rfl, rfl, rfl, rfl, rfl, rfl, rfl⟩,
    ⟨rfl, hdata source hs, rfl, rfl, rfl, rfl, rfl, rfl, rfl⟩⟩

/-- Witness for C9 on concrete blocks with distinct field values. -/
theorem audioBlock_id_not_copied_witness :
    ((⟨2, 10, 1, 11, 1, some [8, 9], 5, 3, 12⟩ : AudioBlock Int).mData = none ↔
      (⟨2, 10, 1, 11, 1, some [8, 9], 5, 3, 12⟩ : AudioBlock Int).mCapacity = 0) ∧
    ((⟨3, 20, 2, 21, 1, some [4, 5, 6], 7, 9, 22⟩ : AudioBlock Int).mData = none ↔
      (⟨3, 20, 2, 21, 1, some [4, 5, 6], 7, 9, 22⟩ : AudioBlock Int).mCapacity = 0) ∧
    ((⟨2, 10, 1, 11, 1, some [8, 9], 5, 3, 12⟩ : AudioBlock Int).copyCtor.mID = 0 ∧
      (⟨2, 10, 1, 11, 1, some [8, 9], 5, 3, 12⟩ : AudioBlock Int).copyCtor.mData = some [8, 9] ∧
      (⟨2, 10, 1, 11, 1, some [8, 9], 5, 3, 12⟩ : AudioBlock Int).copyCtor.mCapacity = 2 ∧
      (⟨2, 10, 1, 11, 1, some [8, 9], 5, 3, 12⟩ : AudioBlock Int).copyCtor.mSize = 1 ∧
      (⟨2, 10, 1, 11, 1, some [8, 9], 5, 3, 12⟩ : AudioBlock Int).copyCtor.mDuration = 10 ∧
      (⟨2, 10, 1, 11, 1, some [8, 9], 5, 3, 12⟩ : AudioBlock Int).copyCtor.mSampleRate = 11 ∧
      (⟨2, 10, 1, 11, 1, some [8, 9], 5, 3, 12⟩ : AudioBlock Int).copyCtor.mChannels = 1 ∧
      (⟨2, 10, 1, 11, 1, some [8, 9], 5, 3, 12⟩ : AudioBlock Int).copyCtor.mTimestamp = 3 ∧
      (⟨2, 10, 1, 11, 1, some [8, 9], 5, 3, 12⟩ : AudioBlock Int).copyCtor.mNormFactor = 12) ∧
    (((⟨1, 1, 1, 1, 1, some [0], 42, 2, 1⟩ : AudioBlock Int).assign
        ⟨3, 20, 2, 21, 1, some [4, 5, 6], 7, 9, 22⟩).mID = 42 ∧
      ((⟨1, 1, 1, 1, 1, some [0], 42, 2, 1⟩ : AudioBlock Int).assign
        ⟨3, 20, 2, 21, 1, some [4, 5, 6], 7, 9, 22⟩).mData = some [4, 5, 6] ∧
      ((⟨1, 1, 1, 1, 1, some [0], 42, 2, 1⟩ : AudioBlock Int).assign
        ⟨3, 20, 2, 21, 1, some [4, 5, 6], 7, 9, 22⟩).mCapacity = 3 ∧
      ((⟨1, 1, 1, 1, 1, some [0], 42, 2, 1⟩ : AudioBlock Int).assign
        ⟨3, 20, 2, 21, 1, some [4, 5, 6], 7, 9, 22⟩).mSize = 2 ∧
      ((⟨1, 1, 1, 1, 1, some [0], 42, 2, 1⟩ : AudioBlock Int).assign
        ⟨3, 20, 2, 21, 1, some [4, 5, 6], 7, 9, 22⟩).mDuration = 20 ∧
      ((⟨1, 1, 1, 1, 1, some [0], 42, 2, 1⟩ : AudioBlock Int).assign
        ⟨3, 20, 2, 21, 1, some [4, 5, 6], 7, 9, 22⟩).mSampleRate = 21 ∧
      ((⟨1, 1, 1, 1, 1, some [0], 42, 2, 1⟩ : AudioBlock Int).assign
        ⟨3, 20, 2, 21, 1, some [4, 5, 6], 7, 9, 22⟩).mChannels = 1 ∧
      ((⟨1, 1, 1, 1, 1, some [0], 42, 2, 1⟩ : AudioBlock Int).assign
        ⟨3, 20, 2, 21, 1, some [4, 5, 6], 7, 9, 22⟩).mTimestamp = 9 ∧
      ((⟨1, 1, 1, 1, 1, some [0], 42, 2, 1⟩ : AudioBlock Int).assign
        ⟨3, 20, 2, 21, 1, some [4, 5, 6], 7, 9, 22⟩).mNormFactor = 22) :=
  ⟨by decide, by decide,
    audioBlock_id_not_copied
      ⟨2, 10, 1, 11, 1, some [8, 9], 5, 3, 12⟩
      ⟨1, 1, 1, 1, 1, some [0], 42, 2, 1⟩
      ⟨3, 20, 2, 21, 1, some [4, 5, 6], 7, 9, 22⟩ (by decide) (by decide)⟩

/-- C10 (counterexample): the claim states that in the non-degenerate case
the destination's size becomes exactly `min(size, sourceSize - start)`.
With a source of 10 available samples, `start = 0`, `size = 5` and a
destination of capacity 3, both blocks non-null and `start` in range, the
final `Resize` clamps the destination's size to its capacity 3, not 5. -/
theorem getSubBlock_size_clamped_cex :
    (⟨10, 0, 10, 1, 1, some [0, 1, 2, 3, 4, 5, 6, 7, 8, 9], 0, 0, 1⟩ :
      AudioBlock Int).IsNull = false ∧
    (⟨3, 0, 0, 1, 1, some [0, 0, 0], 0, 0, 1⟩ : AudioBlock Int).IsNull = false ∧
    0 < (⟨10, 0, 10, 1, 1, some [0, 1, 2, 3, 4, 5, 6, 7, 8, 9], 0, 0, 1⟩ :
      AudioBlock Int).mSize ∧
    min 5 ((⟨10, 0, 10, 1, 1, some [0, 1, 2, 3, 4, 5, 6, 7, 8, 9], 0, 0, 1⟩ :
      AudioBlock Int).mSize - 0) = 5 ∧
    ((⟨10, 0, 10, 1, 1, some [0, 1, 2, 3, 4, 5, 6, 7, 8, 9], 0, 0, 1⟩ :
      AudioBlock Int).GetSubBlock 0 5
      ⟨3, 0, 0, 1, 1, some [0, 0, 0], 0, 0, 1⟩).mSize = 3 := by
  refine ⟨rfl, rfl, by decide, by decide, by decide⟩

/-- C10 (amended): `GetSubBlock` is total — if either block is null or
`start` is not strictly below the source's size, the destination is resized
to 0 and no bytes are copied; otherwise `min(size, sourceSize - start)`
samples are taken from the source, the read never goes past the source's
available data, and the destination's size becomes that count clamped by
the destination's capacity (the final `Resize` truncates it). -/
theorem getSubBlock_total_bounds {T : Type} (b block : AudioBlock T)
    (start size : Nat) :
    ((b.IsNull || block.IsNull || !decide (start < b.mSize)) = true →
      (b.GetSubBlock start size block).mSize = 0 ∧
      (b.GetSubBlock start size block).mData = block.mData) ∧
    ((b.IsNull || block.IsNull || !decide (start < b.mSize)) = false →
      (b.GetSubBlock start size block).mSize =
        min (min size (b.mSize - start)) block.mCapacity ∧
      (b.GetSubBlock start size block).mData = block.mData.map (fun bf =>
        listWrite bf 0
          (((b.mData.getD []).drop start).take (min size (b.mSize - start)))) ∧
      ((b.mData.getD []).drop start).take (min size (b.mSize - start)) =
        (((b.mData.getD []).take b.mSize).drop start).take
          (min size (b.mSize - start))) := by
  constructor
  · intro h
    unfold AudioBlock.GetSubBlock
    rw [if_pos h]
    constructor
    · rw [Resize_mSize]
      omega
    · rfl
  · intro h
    unfold AudioBlock.GetSubBlock
    rw [if_neg (by simp [h])]
    refine ⟨by rw [Resize_mSize], rfl, ?_⟩
    have hle : min size (b.mSize - start) ≤ b.mSize - start := Nat.min_le_right _ _
    rw [List.drop_take, List.take_take, min_eq_left hle]
